import Mathlib

/-!
Verification development for the soiltemp repository: Netlify functions that
fetch IrriMAX Live CSV telemetry (soil moisture / soil temperature), parse it,
and return summarized JSON per requested sensor depth.

The JavaScript handlers are embedded shallowly:
  * machine numbers become `ℚ` (values) and `ℤ` (millisecond instants);
    `NaN`-producing parses become `Option`;
  * the ECMAScript library surface that the handlers rely on is modelled
    explicitly: `Date.UTC` via proleptic-Gregorian day arithmetic,
    `Intl.DateTimeFormat(...).formatToParts` rendering of an instant in a named
    zone via an offset function `ofs : ℤ → ℤ` (wall fields of instant `t`
    re-encoded by `Date.UTC` give `t + ofs t`), and `new Date(string)` native
    parsing for zone-aware stamps via an opaque parameter
    `native : String → Option ℤ`;
  * stateful handler code becomes pure functions of all its inputs (current
    instant `now`, environment key, fetch outcome, query parameters, CSV text).
-/

/-- The double-quote character, used by the CSV state machine. -/
def dquote : Char := Char.ofNat 34

/-- ASCII digit test (JS `\d`). -/
def isDig (c : Char) : Bool := '0' ≤ c ∧ c ≤ '9'

/-- Numeric value of one ASCII digit. -/
def digVal (c : Char) : ℕ := c.toNat - 48

/-- Value of a digit run, most significant first. -/
def digitsVal (ds : List Char) : ℕ := ds.foldl (fun a c => 10 * a + digVal c) 0

/-- Maximal ASCII-digit prefix of a character list, with the remainder. -/
def takeDigits : List Char → List Char × List Char
  | [] => ([], [])
  | c :: rest =>
    if isDig c then
      let (ds, r) := takeDigits rest
      (c :: ds, r)
    else ([], c :: rest)

/-- Drop leading whitespace (JS `StrWhiteSpace` before numeric parsing). -/
def dropWs : List Char → List Char
  | [] => []
  | c :: rest => if c.isWhitespace then dropWs rest else c :: rest

/-- JS `String.prototype.trim`: strip leading and trailing whitespace. -/
def jsTrim (s : String) : String :=
  String.mk (((s.data.dropWhile Char.isWhitespace).reverse.dropWhile Char.isWhitespace).reverse)

/-- `10 ^ e` in `ℚ` for a signed exponent. -/
def pow10q (e : ℤ) : ℚ := if 0 ≤ e then ((10 : ℚ) ^ e.toNat) else 1 / (10 : ℚ) ^ (-e).toNat

/-- Optional sign prefix: returns (sign, rest). -/
def signSplit : List Char → ℚ × List Char
  | [] => (1, [])
  | c :: rest =>
    if c = '-' then (-1, rest)
    else if c = '+' then (1, rest)
    else (1, c :: rest)

/-- Decimal mantissa `\d+(\.\d+)?` or `\.\d+` or `\d+\.` as JS `parseFloat`
accepts; returns its value and the remainder, or `none` when no digits at
all are present. -/
def mantissaNum (cs : List Char) : Option (ℚ × List Char) :=
  let (ds1, r1) := takeDigits cs
  match r1 with
  | '.' :: r2 =>
    let (ds2, r3) := takeDigits r2
    if ds1 = [] ∧ ds2 = [] then none
    else some (((digitsVal ds1 : ℚ) + (digitsVal ds2 : ℚ) / (10 : ℚ) ^ ds2.length), r3)
  | _ => if ds1 = [] then none else some ((digitsVal ds1 : ℚ), r1)

/-- Exponent suffix `[eE][+-]?\d+`; a malformed exponent contributes 0, as JS
`parseFloat` stops before it. -/
def expPart (cs : List Char) : ℤ :=
  match cs with
  | c :: rest =>
    if c = 'e' ∨ c = 'E' then
      let (sgn, r1) := signSplit rest
      let (ds, _) := takeDigits r1
      if ds = [] then 0 else (if sgn = -1 then -(digitsVal ds : ℤ) else (digitsVal ds : ℤ))
    else 0
  | [] => 0

/-- Case-insensitive ASCII prefix test, returning the remainder on success. -/
def ciPrefix : List Char → List Char → Option (List Char)
  | [], rest => some rest
  | _ :: _, [] => none
  | p :: ps, c :: cs => if p.toLower = c.toLower then ciPrefix ps cs else none

/-- Model of JS `parseFloat` restricted to finite results: leading whitespace,
optional sign, decimal mantissa with optional exponent, trailing garbage
ignored. `Infinity` and strings with no leading number give `none` (the
handlers filter every parse through `Number.isFinite`). -/
def parseFloatJS (s : String) : Option ℚ :=
  let cs := dropWs s.data
  let (sgn, r0) := signSplit cs
  match ciPrefix "Infinity".data r0 with
  | some _ => none
  | none =>
    match mantissaNum r0 with
    | none => none
    | some (v, r1) => some (sgn * v * pow10q (expPart r1))

/-- Model of JS `parseInt(s, 10)` restricted to finite results: leading
whitespace, optional sign, maximal digit run; `none` when no digits (NaN). -/
def parseIntJS (s : String) : Option ℤ :=
  let cs := dropWs s.data
  let (sgn, r0) := signSplit cs
  let (ds, _) := takeDigits r0
  if ds = [] then none
  else some ((if sgn = -1 then -1 else 1) * (digitsVal ds : ℤ))

/-- `round1` from every handler: `Math.round(x*10)/10`, where `Math.round`
rounds half toward positive infinity. -/
def round1 (x : ℚ) : ℚ := (⌊x * 10 + 1 / 2⌋ : ℚ) / 10

/-- Days since 1970-01-01 of a proleptic-Gregorian civil date (month in 1..12,
day unconstrained), following the standard civil-from-days algorithm with
C-style truncating division. -/
def daysFromCivil (y m d : ℤ) : ℤ :=
  let y1 := if m ≤ 2 then y - 1 else y
  let era := Int.tdiv (if 0 ≤ y1 then y1 else y1 - 399) 400
  let yoe := y1 - era * 400
  let doy := Int.tdiv (153 * (m + (if 2 < m then -3 else 9)) + 2) 5 + d - 1
  let doe := yoe * 365 + Int.tdiv yoe 4 - Int.tdiv yoe 100 + doy
  era * 146097 + doe - 719468

/-- Inverse of `daysFromCivil`: civil date `(y, m, d)` of a day number. -/
def civilFromDays (z0 : ℤ) : ℤ × ℤ × ℤ :=
  let z := z0 + 719468
  let era := Int.tdiv (if 0 ≤ z then z else z - 146096) 146097
  let doe := z - era * 146097
  let yoe := Int.tdiv (doe - Int.tdiv doe 1460 + Int.tdiv doe 36524 - Int.tdiv doe 146096) 365
  let y := yoe + era * 400
  let doy := doe - (365 * yoe + Int.tdiv yoe 4 - Int.tdiv yoe 100)
  let mp := Int.tdiv (5 * doy + 2) 153
  let d := doy - Int.tdiv (153 * mp + 2) 5 + 1
  let m := mp + (if mp < 10 then 3 else -9)
  (if m ≤ 2 then y + 1 else y, m, d)

/-- Model of `Date.UTC(y, mIdx, d, h, mi, s)` in milliseconds: month index is
normalized by floor division (ECMA `MakeDay`), years 0..99 map to 1900+y,
and day/time fields contribute linearly. -/
def dateUTC (y mIdx d h mi s : ℤ) : ℤ :=
  let ya := y + Int.fdiv mIdx 12
  let mth := Int.emod mIdx 12 + 1
  let y2 := if 0 ≤ ya ∧ ya ≤ 99 then ya + 1900 else ya
  ((daysFromCivil y2 mth 1 + (d - 1)) * 86400 + h * 3600 + mi * 60 + s) * 1000

/-- Calendar date of instant `t` rendered in a zone whose offset function is
`ofs` — the model of `dateOnly_tz` (an `en-CA` `Intl.DateTimeFormat` date). -/
def dateOnly_tz (ofs : ℤ → ℤ) (t : ℤ) : ℤ × ℤ × ℤ :=
  civilFromDays (Int.fdiv (t + ofs t) 86400000)

/-- The wall-clock fields captured by the handlers' timestamp regex
`^(\d{4})-(\d{2})-(\d{2})[T ](\d{2}):(\d{2})(?::(\d{2}))?$`. -/
structure WallFields where
  Y : ℤ
  M : ℤ
  D : ℤ
  h : ℤ
  mi : ℤ
  sec : ℤ
deriving DecidableEq, Repr

/-- `Date.UTC(want.Y, want.M-1, want.D, want.h, want.i, want.s)` — the naive
UTC interpretation of the intended wall-clock fields. -/
def wantUTCms (f : WallFields) : ℤ := dateUTC f.Y (f.M - 1) f.D f.h f.mi f.sec

/-- The two-pass wall-clock correction from `parseLocalWallTime`: guess the
fields as UTC, render the guess in the zone (an instant `t` renders to wall
fields that `Date.UTC`-encode to `t + ofs t`), and correct the guess by the
difference between intended and rendered fields. -/
def twoPass (ofs : ℤ → ℤ) (f : WallFields) : ℤ :=
  let guessMs := wantUTCms f
  let gotMs := guessMs + ofs guessMs
  let wantMs := wantUTCms f
  guessMs + (wantMs - gotMs)

/-- Replace the first space with `T` (JS `.replace(" ", "T")`). -/
def replFirstSpace : List Char → List Char
  | [] => []
  | c :: rest => if c = ' ' then 'T' :: rest else c :: replFirstSpace rest

/-- `s.replace(/\//g, "-").replace(" ", "T")` from `parseLocalWallTime`. -/
def normalizeStamp (s : String) : String :=
  String.mk (replFirstSpace (s.data.map (fun c => if c = '/' then '-' else c)))

/-- Test for `/[+\-]\d{2}:?\d{2}$/`: a trailing numeric UTC offset. -/
def zoneOffsetSuffix (cs : List Char) : Bool :=
  match cs.reverse with
  | d1 :: d2 :: c3 :: d4 :: d5 :: rest =>
    (isDig d1 && isDig d2 && c3 = ':' && isDig d4 && isDig d5 &&
      (match rest with
       | s :: _ => s = '+' ∨ s = '-'
       | [] => false))
    || (isDig d1 && isDig d2 && isDig c3 && isDig d4 && (d5 = '+' ∨ d5 = '-'))
  | _ => false

/-- Test for `/[zZ]$/ ` or a trailing numeric offset: the stamp is already
zone-aware and is handed to native `Date` parsing. -/
def hasZoneSuffix (s : String) : Bool :=
  (match s.data.getLast? with
   | some c => c = 'z' ∨ c = 'Z'
   | none => false)
  || zoneOffsetSuffix s.data

/-- The strict shape test `^(\d{4})-(\d{2})-(\d{2})[T ](\d{2}):(\d{2})(?::(\d{2}))?$`
applied to the normalized stamp; missing seconds default to 0 (`+(m[6]||0)`). -/
def matchWallShape (s : String) : Option WallFields :=
  match s.data with
  | y1 :: y2 :: y3 :: y4 :: s1 :: m1 :: m2 :: s2 :: d1 :: d2 :: sep ::
      h1 :: h2 :: c1 :: i1 :: i2 :: rest =>
    if isDig y1 ∧ isDig y2 ∧ isDig y3 ∧ isDig y4 ∧ s1 = '-' ∧
        isDig m1 ∧ isDig m2 ∧ s2 = '-' ∧ isDig d1 ∧ isDig d2 ∧
        (sep = 'T' ∨ sep = ' ') ∧ isDig h1 ∧ isDig h2 ∧ c1 = ':' ∧
        isDig i1 ∧ isDig i2 then
      let base : WallFields :=
        ⟨(digitsVal [y1, y2, y3, y4] : ℕ), (digitsVal [m1, m2] : ℕ),
         (digitsVal [d1, d2] : ℕ), (digitsVal [h1, h2] : ℕ),
         (digitsVal [i1, i2] : ℕ), 0⟩
      match rest with
      | [] => some base
      | c2 :: e1 :: e2 :: [] =>
        if c2 = ':' ∧ isDig e1 ∧ isDig e2 then
          some { base with sec := (digitsVal [e1, e2] : ℕ) }
        else none
      | _ => none
    else none
  | _ => none

/-- `parseLocalWallTime(tsRaw, timeZone)` from the moisture handlers and the
two-pass temperature handlers. `ofs` is the named zone's offset function
(milliseconds to add to UTC to obtain wall-clock fields) and `native` models
`new Date(string)` for already-zone-aware stamps; `none` is `Invalid Date`. -/
def parseLocalWallTime (ofs : ℤ → ℤ) (native : String → Option ℤ) (tsRaw : String) :
    Option ℤ :=
  let s := jsTrim tsRaw
  if hasZoneSuffix s then native s
  else
    match matchWallShape (normalizeStamp s) with
    | none => none
    | some f => some (twoPass ofs f)

/-- One step of the handlers' `parseCSV` state machine over the input
characters: `inQ` is the inside-quotes flag, `cur` the current cell, `row`
the current row, `out` the emitted rows. A doubled quote inside quotes emits
one quote; `\r` is dropped outside quotes; a trailing unterminated row is
emitted at end of input when non-empty. -/
def csvLoop : Bool → List Char → List (List Char) → List (List (List Char)) →
    List Char → List (List (List Char))
  | _inQ, cur, row, out, [] =>
    if cur.length ≠ 0 ∨ row.length ≠ 0 then out ++ [row ++ [cur]] else out
  | inQ, cur, row, out, c :: rest =>
    if inQ then
      if c = dquote then
        match rest with
        | c2 :: rest2 =>
          if c2 = dquote then csvLoop true (cur ++ [dquote]) row out rest2
          else csvLoop false cur row out (c2 :: rest2)
        | [] => csvLoop false cur row out []
      else csvLoop true (cur ++ [c]) row out rest
    else
      if c = dquote then csvLoop true cur row out rest
      else if c = ',' then csvLoop false [] (row ++ [cur]) out rest
      else if c = Char.ofNat 10 then csvLoop false [] [] (out ++ [row ++ [cur]]) rest
      else if c = Char.ofNat 13 then csvLoop false cur row out rest
      else csvLoop false (cur ++ [c]) row out rest

/-- `parseCSV(text)`: the tiny quoted-cell CSV parser shared by every handler
variant. -/
def parseCSV (text : String) : List (List String) :=
  (csvLoop false [] [] [] text.data).map (fun row => row.map String.mk)

/-- `rows[0].map(x => String(x||"").trim())` — the trimmed header row. -/
def headerOf (rows : List (List String)) : List String :=
  (rows.headD []).map jsTrim

/-- Matcher for `^L\d+\((\d+(?:\.\d+)?)\)\s*$/i` with type letter `L`
(`V` in the moisture handler, `T` in the temperature handlers); returns the
parenthesized number, which the handlers read as centimeters. -/
def matchLetterParen (letter : Char) (s : String) : Option ℚ :=
  match s.data with
  | c :: rest =>
    if c.toLower = letter.toLower then
      let (chan, r1) := takeDigits rest
      if chan = [] then none
      else
        match r1 with
        | p :: r2 =>
          if p = '(' then
            match mantissaParen r2 with
            | some (v, r3) =>
              match r3 with
              | q :: r4 =>
                if q = ')' ∧ r4.all (fun c2 => c2.isWhitespace) then some v else none
              | [] => none
            | none => none
          else none
        | [] => none
    else none
  | [] => none
where
  /-- `\d+(\.\d+)?`: digits with an optional fraction, maximal munch. -/
  mantissaParen (cs : List Char) : Option (ℚ × List Char) :=
    let (ds1, r1) := takeDigits cs
    if ds1 = [] then none
    else
      match r1 with
      | '.' :: r2 =>
        let (ds2, r3) := takeDigits r2
        if ds2 = [] then none
        else some ((digitsVal ds1 : ℚ) + (digitsVal ds2 : ℚ) / (10 : ℚ) ^ ds2.length, r3)
      | _ => some ((digitsVal ds1 : ℚ), r1)

/-- Continuation of the free-text fallback regexes after a matched keyword:
`[^0-9]*([0-9]+(?:\.\d+)?)\s*cm` — skip to the first digit, take a maximal
decimal number, skip whitespace, require `cm` (case-insensitively). Maximal
munch is exact here because the follow set `\s*cm` cannot start with a digit
or a dot. -/
def afterKeyword (cs : List Char) : Option ℚ :=
  match matchLetterParen.mantissaParen (cs.dropWhile (fun c => ¬ isDig c)) with
  | none => none
  | some (v, r1) =>
    match ciPrefix "cm".data (r1.dropWhile Char.isWhitespace) with
    | some _ => some v
    | none => none

/-- Left-to-right scan for the free-text fallback: at each position, if one of
the keyword alternatives matches there, try the `[^0-9]*number\s*cm`
continuation; otherwise (or on continuation failure) resume at the next
position — the leftmost successful match wins, as in the JS regexes. -/
def fallbackScan (kw : List Char → Option (List Char)) : List Char → Option ℚ
  | [] => none
  | c :: rest =>
    match kw (c :: rest) with
    | some after =>
      match afterKeyword after with
      | some v => some v
      | none => fallbackScan kw rest
    | none => fallbackScan kw rest

/-- Keyword alternatives of the moisture fallback regex
`(?:vwc|theta|θ|water\s*content)/i`. -/
def moistKw (cs : List Char) : Option (List Char) :=
  match ciPrefix "vwc".data cs with
  | some r => some r
  | none =>
    match ciPrefix "theta".data cs with
    | some r => some r
    | none =>
      match cs with
      | c :: r =>
        if c = 'θ' ∨ c = 'Θ' then some r
        else
          match ciPrefix "water".data cs with
          | some r2 => ciPrefix "content".data (r2.dropWhile Char.isWhitespace)
          | none => none
      | [] => none

/-- Keyword alternatives of the temperature fallback regex
`(?:temp|temperature)/i` (the `temp` branch subsumes the other). -/
def tempKw (cs : List Char) : Option (List Char) := ciPrefix "temp".data cs

/-- Depth in inches recognized for one moisture header cell
(`src/soil-moisture.js`, first handler): `V#(cm)` or the `vwc/theta/θ/water
content … cm` fallback, both converted by `/ 2.54`. -/
def vColDepth (h : String) : Option ℚ :=
  match matchLetterParen 'V' h with
  | some cm => some (cm / 2.54)
  | none => (fallbackScan moistKw h.data).map (fun cm => cm / 2.54)

/-- Depth in inches recognized for one temperature header cell (the `T#(cm)`
handlers): `T#(cm)` or the `temp … cm` fallback, both converted by `/ 2.54`. -/
def tempColDepth (h : String) : Option ℚ :=
  match matchLetterParen 'T' h with
  | some cm => some (cm / 2.54)
  | none => (fallbackScan tempKw h.data).map (fun cm => cm / 2.54)

/-- A recognized depth column: `{ colIdx, depthInches }`. -/
structure VCol where
  colIdx : ℕ
  depthInches : ℚ
deriving DecidableEq, Repr

/-- `header.forEach((h, i) => …)` collecting moisture columns in header
order. -/
def identifyVCols (header : List String) : List VCol :=
  header.enum.filterMap (fun p => (vColDepth p.2).map (fun d => VCol.mk p.1 d))

/-- `header.forEach((h, i) => …)` collecting temperature columns in header
order. -/
def identifyTempCols (header : List String) : List VCol :=
  header.enum.filterMap (fun p => (tempColDepth p.2).map (fun d => VCol.mk p.1 d))

/-- One parsed data row of the moisture handler: an absolute instant and the
per-column raw values `{colIdx: vwc}` in column order. -/
structure MReading where
  ts : ℤ
  vals : List (ℕ × ℚ)
deriving DecidableEq, Repr

/-- The moisture handler's readings loop (`for (let r = 1; …)`): skip rows
with a falsy date cell or unparseable timestamp, collect the finite parses of
the recognized columns, keep the row when at least one value parsed. -/
def buildMReadings (ofs : ℤ → ℤ) (native : String → Option ℤ) (cols : List VCol)
    (rows : List (List String)) : List MReading :=
  rows.tail.filterMap (fun row =>
    let rawTs := row.getD 0 ""
    if rawTs = "" then none
    else
      match parseLocalWallTime ofs native rawTs with
      | none => none
      | some ts =>
        let vals := cols.filterMap
          (fun c => (parseFloatJS (row.getD c.colIdx "")).map (fun v => (c.colIdx, v)))
        if vals = [] then none else some ⟨ts, vals⟩)

/-- `sample.sort((a,b)=>a-b)[Math.floor(sample.length/2)]`. The first moisture
handler leaves the out-of-range access as `undefined`, the second appends
`|| 0`; both make the `median > 1` test false for an empty sample, which the
default value 0 reproduces. -/
def medianJS (sample : List ℚ) : ℚ :=
  (List.insertionSort (fun a b => a ≤ b) sample).getD (sample.length / 2) 0

/-- `const factor = median > 1 ? 1 : 100` — the unit-scale factor detected
from the latest reading's values. -/
def scaleFactor (sample : List ℚ) : ℚ := if 1 < medianJS sample then 1 else 100

/-- `r.ts.getTime() < cutoffMs`, where `cutoffMs` is NaN (`none`) when the
`days` query parameter parsed to NaN — a NaN comparison is false, so no row
is dropped. -/
def cutoffBelow : Option ℤ → ℤ → Bool
  | some cut, ts => ts < cut
  | none, _ => false

/-- The per-column series built by the moisture handler's window loop: for
each kept reading at or after the cutoff, the column's raw value scaled by
the unit factor, in reading order. -/
def seriesFor (cutoff : Option ℤ) (factor : ℚ) (readings : List MReading) (c : ℕ) :
    List (ℤ × ℚ) :=
  readings.filterMap (fun r =>
    if cutoffBelow cutoff r.ts then none
    else (r.vals.lookup c).map (fun raw => (r.ts, raw * factor)))

/-- The nearest-depth selection loop shared by the handlers:
`let best = cols[0]; for (const c of cols) if (|c.depth - want| < |best.depth
- want|) best = c` — strict `<` makes ties first-wins. -/
def nearGo (w : ℚ) : VCol → List VCol → VCol
  | best, [] => best
  | best, c :: rest =>
    nearGo w (if |c.depthInches - w| < |best.depthInches - w| then c else best) rest

/-- One `depths` output entry of the moisture handler:
`{depthIn, vwc, avg30, mappedDepthIn}` with `null` as `none`. -/
structure DepthOut where
  depthIn : ℚ
  vwc : Option ℚ
  avg30 : Option ℚ
  mappedDepthIn : ℚ
deriving DecidableEq, Repr

/-- The per-requested-depth step of the moisture handler: nearest column,
its windowed series sorted by time, latest value and window average. -/
def depthOutFor (c0 : VCol) (vCols : List VCol) (readings : List MReading)
    (cutoff : Option ℤ) (factor : ℚ) (want : ℚ) : DepthOut :=
  let best := nearGo want c0 vCols
  let ser := seriesFor cutoff factor readings best.colIdx
  if ser = [] then ⟨want, none, none, round1 best.depthInches⟩
  else
    let sorted := List.insertionSort (fun a b => a.1 ≤ b.1) ser
    let latest := (sorted.getLastD (0, 0)).2
    let avg := (sorted.map (fun p => p.2)).sum / (sorted.length : ℚ)
    ⟨want, some (round1 latest), some (round1 avg), round1 best.depthInches⟩

/-- The JSON bodies the moisture handler can produce. -/
inductive MBody where
  | empty
  | note (msg : String)
  | errMsg (msg : String)
  | errHeader (msg : String) (header : List String)
  | fetchFailed (status : ℕ) (body : String)
  | data (name tz : String) (days : Option ℤ) (depths : List DepthOut)
deriving DecidableEq, Repr

/-- A handler response: `{statusCode, body}` (headers are constant glue). -/
structure Resp (β : Type) where
  statusCode : ℕ
  body : β
deriving DecidableEq, Repr

/-- The moisture pipeline from CSV text to response
(`src/soil-moisture.js`, first handler, after the fetch succeeded). -/
def moistureCore (ofs : ℤ → ℤ) (native : String → Option ℤ) (now : ℤ)
    (name tz : String) (days : Option ℤ) (depthsReq : List ℚ) (csvText : String) :
    Resp MBody :=
  let rows := parseCSV csvText
  if rows = [] then ⟨200, .note "No data (empty CSV)"⟩
  else
    let header := headerOf rows
    match identifyVCols header with
    | [] => ⟨500, .errHeader "No moisture (VWC) columns detected" header⟩
    | c0 :: restCols =>
      let vCols := c0 :: restCols
      let readings := buildMReadings ofs native vCols rows
      match readings.getLast? with
      | none => ⟨200, .errHeader "No VWC readings parsed." header⟩
      | some last =>
        let factor := scaleFactor (last.vals.map (fun p => p.2))
        let cutoff := days.map (fun d => now - d * 86400000)
        ⟨200, .data name tz days
          (depthsReq.map (depthOutFor c0 vCols readings cutoff factor))⟩

/-- JS string truthiness for the `p.x || default` and `!x` idioms:
`none` for a missing or empty string. -/
def truthyS : Option String → Option String
  | some s => if s = "" then none else some s
  | none => none

/-- `s.split(",")` (split on every comma; empty input gives one empty
piece). -/
def splitCommaAux : List Char → List Char → List String
  | acc, [] => [String.mk acc.reverse]
  | acc, c :: rest =>
    if c = ',' then String.mk acc.reverse :: splitCommaAux [] rest
    else splitCommaAux (c :: acc) rest

/-- `s.split(",")`. -/
def splitComma (s : String) : List String := splitCommaAux [] s.data

/-- `(p.depths || "6,22").split(",").map(s => parseFloat(s.trim()))
.filter(n => Number.isFinite(n) && n > 0)`. -/
def parseDepthsReq (s : String) : List ℚ :=
  (splitComma s).filterMap (fun t =>
    match parseFloatJS (jsTrim t) with
    | some n => if 0 < n then some n else none
    | none => none)

/-- The moisture handler's query parameters. -/
structure MoistureParams where
  name : Option String
  tz : Option String
  days : Option String
  depths : Option String
deriving DecidableEq, Repr

/-- Outcome of the one outbound `fetch`: a rejected promise (an exception at
the `await`) or a settled response with status and body text. -/
inductive FetchOutcome where
  | reject (msg : String)
  | response (status : ℕ) (text : String)
deriving DecidableEq, Repr

/-- The Netlify event as the moisture handler reads it. -/
structure MEvent where
  httpMethod : Option String
  queryStringParameters : Option MoistureParams
deriving DecidableEq, Repr

/-- The body of the moisture handler's `try` block: `.error` is a thrown
exception reaching the `catch`. -/
def moistureTry (ofs : ℤ → ℤ) (native : String → Option ℤ) (now : ℤ)
    (apiKey : Option String) (fetched : FetchOutcome) (event : MEvent) :
    Except String (Resp MBody) :=
  let p := event.queryStringParameters.getD ⟨none, none, none, none⟩
  let tz := (truthyS p.tz).getD "America/Chicago"
  let days := (parseIntJS ((truthyS p.days).getD "30")).map (fun d => max 1 d)
  let depthsReq := parseDepthsReq ((truthyS p.depths).getD "6,22")
  match truthyS p.name with
  | none => .ok ⟨400, .errMsg "Missing ?name=LOGGER_NAME"⟩
  | some name =>
    match truthyS apiKey with
    | none => .ok ⟨500, .errMsg "Missing IRRIMAX_API_KEY env var"⟩
    | some _ =>
      match fetched with
      | .reject msg => .error msg
      | .response status text =>
        if status < 200 ∨ 300 ≤ status then .ok ⟨502, .fetchFailed status text⟩
        else .ok (moistureCore ofs native now name tz days depthsReq text)

/-- `exports.handler` of `src/soil-moisture.js` (first handler): CORS
preflight short-circuit, then the `try` body with every exception caught and
turned into a status-500 JSON error. -/
def moistureHandler (ofs : ℤ → ℤ) (native : String → Option ℤ) (now : ℤ)
    (apiKey : Option String) (fetched : FetchOutcome) (event : MEvent) : Resp MBody :=
  if event.httpMethod = some "OPTIONS" then ⟨204, .empty⟩
  else
    match moistureTry ofs native now apiKey fetched event with
    | .ok r => r
    | .error e => ⟨500, .errMsg e⟩

/-- One parsed temperature reading: `{ ts, temp }`. -/
structure TReading where
  ts : ℤ
  temp : ℚ
deriving DecidableEq, Repr

/-- The temperature handlers' readings loop: skip rows with a falsy date cell
or unparseable timestamp, keep the row when the mapped column parses to a
finite number. -/
def buildTReadings (ofs : ℤ → ℤ) (native : String → Option ℤ) (colIdx : ℕ)
    (rows : List (List String)) : List TReading :=
  rows.tail.filterMap (fun row =>
    let rawTs := row.getD 0 ""
    if rawTs = "" then none
    else
      match parseLocalWallTime ofs native rawTs with
      | none => none
      | some ts => (parseFloatJS (row.getD colIdx "")).map (fun v => TReading.mk ts v))

set_option linter.unusedVariables false in
/-- The readings stage of the two-pass temperature handlers
(`src/netlify/functions/soil-temp.js` second handler and
`src/unnamed/part_000`): the requested output zone `tz` is in scope, but the
code calls `parseLocalWallTime(tsRaw, "America/Chicago")` with the literal
zone name, so bare stamps are resolved against America/Chicago only. `tzdb`
maps a zone name to its offset function. -/
def tempReadingsStage (tzdb : String → ℤ → ℤ) (native : String → Option ℤ)
    (tz : String) (colIdx : ℕ) (rows : List (List String)) : List TReading :=
  buildTReadings (tzdb "America/Chicago") native colIdx rows

/-- Nearest-depth selection when the requested depth may be NaN
(`parseFloat(p.depth || "6")`): a NaN comparison is false, so the running
best never changes. -/
def nearGoT (w : Option ℚ) : VCol → List VCol → VCol
  | best, [] => best
  | best, c :: rest =>
    nearGoT w
      (match w with
       | none => best
       | some wq => if |c.depthInches - wq| < |best.depthInches - wq| then c else best)
      rest

/-- `if (!high || r.temp > high.temp) high = r` over the today readings:
first-encountered wins ties. -/
def highOf (l : List TReading) : Option TReading :=
  l.foldl (fun acc r =>
    match acc with
    | none => some r
    | some hr => if hr.temp < r.temp then some r else some hr) none

/-- `if (!low || r.temp < low.temp) low = r` over the today readings. -/
def lowOf (l : List TReading) : Option TReading :=
  l.foldl (fun acc r =>
    match acc with
    | none => some r
    | some hr => if r.temp < hr.temp then some r else some hr) none

/-- `avgOver(daysBack)`: mean of the readings within the rolling window
`ts ≥ now − daysBack·24h`, `null` when the window is empty. -/
def avgOver (now : ℤ) (readings : List TReading) (daysBack : ℤ) : Option ℚ :=
  let cutoff := now - daysBack * 86400000
  let arr := readings.filter (fun r => cutoff ≤ r.ts)
  if arr = [] then none else some ((arr.map (fun r => r.temp)).sum / (arr.length : ℚ))

/-- The `data` body of the two-pass temperature handler's 200 response.
Formatted time strings (`fmtTime`, `toISOString`) are presentation of the
instants kept here as `ℤ` milliseconds. -/
structure TData where
  name : String
  tz : String
  depthRequestedIn : Option ℚ
  depthMappedIn : ℚ
  columnHeader : String
  currentValue : ℚ
  currentTs : ℤ
  high : Option (ℚ × ℤ)
  low : Option (ℚ × ℤ)
  avg : Option ℚ
  count : ℕ
  trend7Avg : Option ℚ
  trend7Delta : Option ℚ
  trend30Avg : Option ℚ
  trend30Delta : Option ℚ
deriving DecidableEq, Repr

/-- The JSON bodies the two-pass temperature handler can produce. -/
inductive TBody where
  | empty
  | note (msg : String)
  | headerDump (header : List String)
  | errMsg (msg : String)
  | errHeader (msg : String) (header : List String)
  | fetchFailed (status : ℕ) (body : String)
  | data (d : TData)
deriving DecidableEq, Repr

/-- The temperature pipeline from CSV text to response
(`src/netlify/functions/soil-temp.js`, second handler; identical up to a
debug field in `src/unnamed/part_000`). -/
def tempCore (tzdb : String → ℤ → ℤ) (native : String → Option ℤ) (now : ℤ)
    (name tz : String) (depthReq : Option ℚ) (debug : Bool) (csvText : String) :
    Resp TBody :=
  let rows := parseCSV csvText
  if rows = [] then ⟨200, .note "No data (empty CSV)"⟩
  else
    let header := headerOf rows
    if debug then ⟨200, .headerDump header⟩
    else
      match identifyTempCols header with
      | [] => ⟨500, .errHeader "No depth columns detected (expected T#(cm) headers)" header⟩
      | c0 :: restCols =>
        let mapped := nearGoT depthReq c0 (c0 :: restCols)
        let readings := tempReadingsStage tzdb native tz mapped.colIdx rows
        if readings = [] then ⟨200, .errHeader "No readings parsed." header⟩
        else
          let sorted := List.insertionSort (fun a b => a.ts ≤ b.ts) readings
          let latest := sorted.getLastD ⟨0, 0⟩
          let todayKey := dateOnly_tz (tzdb tz) now
          let todays := sorted.filter (fun r => dateOnly_tz (tzdb tz) r.ts = todayKey)
          let tsum := (todays.map (fun r => r.temp)).sum
          let avgToday : Option ℚ :=
            if todays.length ≠ 0 then some (tsum / (todays.length : ℚ)) else none
          let avg7 := avgOver now sorted 7
          let avg30 := avgOver now sorted 30
          ⟨200, .data
            { name := name
              tz := tz
              depthRequestedIn := depthReq
              depthMappedIn := round1 mapped.depthInches
              columnHeader := header.getD mapped.colIdx ""
              currentValue := round1 latest.temp
              currentTs := latest.ts
              high := (highOf todays).map (fun r => (round1 r.temp, r.ts))
              low := (lowOf todays).map (fun r => (round1 r.temp, r.ts))
              avg := avgToday.map round1
              count := todays.length
              trend7Avg := avg7.map round1
              trend7Delta := avg7.map (fun a => round1 (latest.temp - a))
              trend30Avg := avg30.map round1
              trend30Delta := avg30.map (fun a => round1 (latest.temp - a)) }⟩

/-- The two-pass temperature handler's query parameters. -/
structure TParams where
  name : Option String
  depth : Option String
  tz : Option String
  days : Option String
  debug : Option String
deriving DecidableEq, Repr

/-- The Netlify event as the temperature handler reads it. -/
structure TEvent where
  httpMethod : Option String
  queryStringParameters : Option TParams
deriving DecidableEq, Repr

/-- The body of the temperature handler's `try` block. -/
def tempTry (tzdb : String → ℤ → ℤ) (native : String → Option ℤ) (now : ℤ)
    (apiKey : Option String) (fetched : FetchOutcome) (event : TEvent) :
    Except String (Resp TBody) :=
  let p := event.queryStringParameters.getD ⟨none, none, none, none, none⟩
  let depthReq := parseFloatJS ((truthyS p.depth).getD "6")
  let tz := (truthyS p.tz).getD "America/Chicago"
  let _days := (parseIntJS ((truthyS p.days).getD "30")).map (fun d => max 1 d)
  match truthyS p.name with
  | none => .ok ⟨400, .errMsg "Missing ?name=LOGGER_NAME"⟩
  | some name =>
    match truthyS apiKey with
    | none => .ok ⟨500, .errMsg "Missing IRRIMAX_API_KEY env var"⟩
    | some _ =>
      match fetched with
      | .reject msg => .error msg
      | .response status text =>
        if status < 200 ∨ 300 ≤ status then .ok ⟨502, .fetchFailed status text⟩
        else .ok (tempCore tzdb native now name tz depthReq (p.debug = some "1") text)

/-- `exports.handler` of the second handler in
`src/netlify/functions/soil-temp.js`: CORS preflight short-circuit, then the
`try` body with every exception caught and turned into a status-500 JSON
error. -/
def tempHandler (tzdb : String → ℤ → ℤ) (native : String → Option ℤ) (now : ℤ)
    (apiKey : Option String) (fetched : FetchOutcome) (event : TEvent) : Resp TBody :=
  if event.httpMethod = some "OPTIONS" then ⟨204, .empty⟩
  else
    match tempTry tzdb native now apiKey fetched event with
    | .ok r => r
    | .error e => ⟨500, .errMsg e⟩

/-- First match of `/\((\d+)\)/` in a header cell: scan left to right for a
`(`, a nonempty digit run, then `)`; returns the digits' value. -/
def parenDigits : List Char → Option ℕ
  | [] => none
  | c :: rest =>
    if c = '(' then
      let (ds, r1) := takeDigits rest
      if ds ≠ [] ∧ r1.headD ' ' = ')' then some (digitsVal ds)
      else parenDigits rest
    else parenDigits rest

/-- The mapped column of the Papa-parse temperature handler
(`src/netlify/functions/soil-temp.js`, first handler): `colIdx` from
`headers.indexOf(col)`, `depthInches` set to `parseInt(match[1], 10)` with no
centimeter conversion, `colName` the header cell. -/
structure PapaMapped where
  colIdx : ℕ
  depthInches : ℤ
  colName : String
deriving DecidableEq, Repr

/-- The column-selection loop of the Papa-parse temperature handler: over the
headers starting with `T`, take the parenthesized integer as the depth and
keep the nearest to the request. `!mapped.colIdx` is the update guard, so a
previously chosen column at index 0 also counts as unset. -/
def papaTempMapping (headers : List String) (depthReq : ℚ) : Option PapaMapped :=
  (headers.filter (fun h => h.data.headD (Char.ofNat 0) = 'T')).foldl
    (fun m col =>
      match parenDigits col.data with
      | none => m
      | some dNat =>
        let depth : ℤ := dNat
        let upd : Bool :=
          match m with
          | none => true
          | some pm => pm.colIdx = 0 ∨ |(depth : ℚ) - depthReq| < |(pm.depthInches : ℚ) - depthReq|
        if upd then some ⟨headers.indexOf col, depth, col⟩ else m)
    none

/-- The today-average field of the Papa-parse temperature handler:
`const avg = todayReadings.length ? sum / todayReadings.length : null`
followed by `avg: avg ? round1(avg) : null` in the response — JS truthiness,
so an average of exactly 0 is emitted as `null`. -/
def papaTodayAvgOut (todayTemps : List ℚ) : Option ℚ :=
  let avg : Option ℚ :=
    if todayTemps.length ≠ 0 then some (todayTemps.sum / (todayTemps.length : ℚ)) else none
  match avg with
  | some a => if a = 0 then none else some (round1 a)
  | none => none

/-- Modelled from the spec: the "direct fixed-offset conversion" a
DST-free resolution should equal — the intended wall-clock fields interpreted
as UTC minus the zone's fixed offset. Compared against `parseLocalWallTime`
in the C5 refinement theorem. -/
def fixedOffsetResolve (offMs : ℤ) (f : WallFields) : ℤ := wantUTCms f - offMs

/-- The two-pass correction always lands at the intended fields minus the
zone's offset *at the first guess*. -/
theorem twoPass_eq (ofs : ℤ → ℤ) (f : WallFields) :
    twoPass ofs f = wantUTCms f - ofs (wantUTCms f) := by
  unfold twoPass
  ring

/-- Specification of the nearest-depth fold `nearGo`: the result either is the
initial best and no scanned element strictly beats it, or it occurs in the
scanned list, strictly beats the initial best and everything before it, and
is no worse than everything after it. -/
theorem nearGo_spec (w : ℚ) :
    ∀ (cs : List VCol) (best : VCol),
      (nearGo w best cs = best ∧
        ∀ c ∈ cs, |(nearGo w best cs).depthInches - w| ≤ |c.depthInches - w|) ∨
      (∃ pre post, cs = pre ++ nearGo w best cs :: post ∧
        |(nearGo w best cs).depthInches - w| < |best.depthInches - w| ∧
        (∀ c ∈ pre, |(nearGo w best cs).depthInches - w| < |c.depthInches - w|) ∧
        (∀ c ∈ post, |(nearGo w best cs).depthInches - w| ≤ |c.depthInches - w|)) := by
  intro cs
  induction cs with
  | nil =>
    intro best
    left
    exact ⟨rfl, by simp⟩
  | cons c rest ih =>
    intro best
    by_cases hlt : |c.depthInches - w| < |best.depthInches - w|
    · have hg : nearGo w best (c :: rest) = nearGo w c rest := by
        rw [nearGo, if_pos hlt]
      rcases ih c with ⟨heq, hmin⟩ | ⟨pre, post, hsplit, hbeat, hpre, hpost⟩
      · right
        refine ⟨[], rest, ?_, ?_, ?_, ?_⟩
        · simp [hg, heq]
        · rw [hg, heq]; exact hlt
        · intro x hx; simp at hx
        · intro x hx; rw [hg]; exact hmin x hx
      · right
        refine ⟨c :: pre, post, ?_, ?_, ?_, ?_⟩
        · rw [hg]; exact congrArg (List.cons c) hsplit
        · rw [hg]; exact lt_trans hbeat hlt
        · intro x hx
          rw [hg]
          rcases List.mem_cons.mp hx with rfl | hx2
          · exact hbeat
          · exact hpre x hx2
        · intro x hx; rw [hg]; exact hpost x hx
    · have hg : nearGo w best (c :: rest) = nearGo w best rest := by
        rw [nearGo, if_neg hlt]
      have hle : |best.depthInches - w| ≤ |c.depthInches - w| := not_lt.mp hlt
      rcases ih best with ⟨heq, hmin⟩ | ⟨pre, post, hsplit, hbeat, hpre, hpost⟩
      · left
        constructor
        · rw [hg, heq]
        · intro x hx
          rcases List.mem_cons.mp hx with rfl | hx2
          · rw [hg, heq]; exact hle
          · rw [hg]; exact hmin x hx2
      · right
        refine ⟨c :: pre, post, ?_, ?_, ?_, ?_⟩
        · rw [hg]; exact congrArg (List.cons c) hsplit
        · rw [hg]; exact hbeat
        · intro x hx
          rw [hg]
          rcases List.mem_cons.mp hx with rfl | hx2
          · exact lt_of_lt_of_le hbeat hle
          · exact hpre x hx2
        · intro x hx; rw [hg]; exact hpost x hx

/-- C1 (amended): when the latest reading's values have median exactly 1.0,
the strict `median > 1` test fails, so the pipeline treats the values as
fractional and scales by 100 (not 1). -/
theorem unit_boundary_median_one_scales (sample : List ℚ)
    (h : medianJS sample = 1) : scaleFactor sample = 100 := by
  unfold scaleFactor
  rw [h]
  norm_num

/-- C3 (amended): no rows and zero parseable readings are indeed returned as
successful (status 200) "no data" results and never as exceptions, but zero
recognized depth columns is returned as a status-500 error result. -/
theorem empty_data_statuses :
    (∀ (ofs : ℤ → ℤ) (native : String → Option ℤ) (now : ℤ) (name tz : String)
        (days : Option ℤ) (depthsReq : List ℚ) (csv : String),
      parseCSV csv = [] →
      moistureCore ofs native now name tz days depthsReq csv =
        ⟨200, .note "No data (empty CSV)"⟩) ∧
    (∀ (ofs : ℤ → ℤ) (native : String → Option ℤ) (now : ℤ) (name tz : String)
        (days : Option ℤ) (depthsReq : List ℚ) (csv : String),
      parseCSV csv ≠ [] →
      identifyVCols (headerOf (parseCSV csv)) = [] →
      moistureCore ofs native now name tz days depthsReq csv =
        ⟨500, .errHeader "No moisture (VWC) columns detected"
          (headerOf (parseCSV csv))⟩) ∧
    (∀ (ofs : ℤ → ℤ) (native : String → Option ℤ) (now : ℤ) (name tz : String)
        (days : Option ℤ) (depthsReq : List ℚ) (csv : String)
        (c0 : VCol) (restCols : List VCol),
      parseCSV csv ≠ [] →
      identifyVCols (headerOf (parseCSV csv)) = c0 :: restCols →
      buildMReadings ofs native (c0 :: restCols) (parseCSV csv) = [] →
      moistureCore ofs native now name tz days depthsReq csv =
        ⟨200, .errHeader "No VWC readings parsed." (headerOf (parseCSV csv))⟩) := by
  refine ⟨?_, ?_, ?_⟩
  · intro ofs native now name tz days depthsReq csv h
    simp [moistureCore, h]
  · intro ofs native now name tz days depthsReq csv hne hcols
    simp [moistureCore, hne, hcols]
  · intro ofs native now name tz days depthsReq csv c0 restCols hne hcols hreads
    simp [moistureCore, hne, hcols, hreads]

/-- C4: in the two-pass temperature handlers the readings stage resolves every
bare timestamp against the literal zone `America/Chicago`, so two requests
identical except for the `tz` parameter produce identical resolved reading
instants (and values); `tz` affects only today-window grouping and output
formatting downstream. -/
theorem tz_independent_reading_instants (tzdb : String → ℤ → ℤ)
    (native : String → Option ℤ) (tz1 tz2 : String) (colIdx : ℕ)
    (rows : List (List String)) :
    tempReadingsStage tzdb native tz1 colIdx rows =
      tempReadingsStage tzdb native tz2 colIdx rows := rfl

/-- C5: for a bare wall-clock stamp of the accepted shape, when the zone's
offset at the first-guess instant equals its offset at the corrected instant
(no DST transition in effect), the two-pass resolver returns exactly the
direct fixed-offset conversion: the intended fields as UTC minus that fixed
offset. -/
theorem two_pass_equals_fixed_offset (ofs : ℤ → ℤ) (native : String → Option ℤ)
    (s : String) (f : WallFields)
    (hz : hasZoneSuffix (jsTrim s) = false)
    (hm : matchWallShape (normalizeStamp (jsTrim s)) = some f)
    (hdst : ofs (wantUTCms f) = ofs (twoPass ofs f)) :
    parseLocalWallTime ofs native s = some (fixedOffsetResolve (ofs (twoPass ofs f)) f) := by
  unfold parseLocalWallTime
  simp only [hz, Bool.false_eq_true, if_false, hm]
  unfold fixedOffsetResolve
  rw [← hdst, twoPass_eq]

/-- C8: the full moisture pipeline is a pure function of the CSV text, the
request parameters, the zone database, the environment key, the fetch
outcome and the "now" instant — two runs on identical inputs produce
identical results. -/
theorem pipeline_two_run_equality (ofs : ℤ → ℤ) (native : String → Option ℤ)
    (now : ℤ) (apiKey : Option String) (fetched : FetchOutcome) (event : MEvent)
    (r1 r2 : Resp MBody)
    (h1 : r1 = moistureHandler ofs native now apiKey fetched event)
    (h2 : r2 = moistureHandler ofs native now apiKey fetched event) :
    r1 = r2 :=
  h1.trans h2.symm

/-- C8 witness: two runs on a concrete request and CSV are equal. -/
theorem pipeline_two_run_equality_witness :
    moistureHandler (fun _ => 0) (fun _ => none) 0 (some "k")
        (.response 200 "Date Time,V1(5)\n2024-06-15 12:00,0.31\n")
        ⟨some "GET", some ⟨some "L", none, none, none⟩⟩ =
      moistureHandler (fun _ => 0) (fun _ => none) 0 (some "k")
        (.response 200 "Date Time,V1(5)\n2024-06-15 12:00,0.31\n")
        ⟨some "GET", some ⟨some "L", none, none, none⟩⟩ :=
  pipeline_two_run_equality (fun _ => 0) (fun _ => none) 0 (some "k")
    (.response 200 "Date Time,V1(5)\n2024-06-15 12:00,0.31\n")
    ⟨some "GET", some ⟨some "L", none, none, none⟩⟩ _ _ rfl rfl

/-- C9: in the truthiness-checked temperature handler, a non-empty today
window whose arithmetic mean is exactly 0 produces a null `avg` field, the
same output as an empty window. -/
theorem zero_average_reported_null (temps : List ℚ) (hne : temps ≠ [])
    (hzero : temps.sum / (temps.length : ℚ) = 0) :
    papaTodayAvgOut temps = none ∧ papaTodayAvgOut [] = none := by
  constructor
  · unfold papaTodayAvgOut
    have hlen : temps.length ≠ 0 := fun h => hne (List.length_eq_zero.mp h)
    rw [if_pos hlen]
    simp [hzero]
  · rfl

/-- C10: both handlers always return a `{statusCode, body}` response, and any
exception reaching the `catch` (modelled as the `try` body's `.error`) is
converted into a status-500 JSON error result, so the handler promise never
rejects. -/
theorem handler_totality_catch :
    (∀ (ofs : ℤ → ℤ) (native : String → Option ℤ) (now : ℤ)
        (apiKey : Option String) (fetched : FetchOutcome) (event : MEvent),
      ∃ sc b, moistureHandler ofs native now apiKey fetched event = ⟨sc, b⟩) ∧
    (∀ (ofs : ℤ → ℤ) (native : String → Option ℤ) (now : ℤ)
        (apiKey : Option String) (fetched : FetchOutcome) (event : MEvent)
        (e : String),
      event.httpMethod ≠ some "OPTIONS" →
      moistureTry ofs native now apiKey fetched event = .error e →
      moistureHandler ofs native now apiKey fetched event = ⟨500, .errMsg e⟩) ∧
    (∀ (tzdb : String → ℤ → ℤ) (native : String → Option ℤ) (now : ℤ)
        (apiKey : Option String) (fetched : FetchOutcome) (event : TEvent),
      ∃ sc b, tempHandler tzdb native now apiKey fetched event = ⟨sc, b⟩) ∧
    (∀ (tzdb : String → ℤ → ℤ) (native : String → Option ℤ) (now : ℤ)
        (apiKey : Option String) (fetched : FetchOutcome) (event : TEvent)
        (e : String),
      event.httpMethod ≠ some "OPTIONS" →
      tempTry tzdb native now apiKey fetched event = .error e →
      tempHandler tzdb native now apiKey fetched event = ⟨500, .errMsg e⟩) := by
  refine ⟨?_, ?_, ?_, ?_⟩
  · intro ofs native now apiKey fetched event
    exact ⟨_, _, rfl⟩
  · intro ofs native now apiKey fetched event e hopt htry
    unfold moistureHandler
    rw [if_neg hopt, htry]
  · intro tzdb native now apiKey fetched event
    exact ⟨_, _, rfl⟩
  · intro tzdb native now apiKey fetched event e hopt htry
    unfold tempHandler
    rw [if_neg hopt, htry]

section KernelEval

set_option allowUnsafeReducibility true
attribute [local semireducible] Rat.ofScientific Rat.mul Rat.inv Rat.add Rat.sub

/-- C1 counterexample: at a request whose latest reading's values have median
exactly 1.0, the pipeline does **not** leave the series unscaled — the
detected factor is 100, and the concrete run turns a raw value 1 into an
output moisture of 100 (not 1). -/
theorem unit_boundary_median_one_scales_counterexample :
    medianJS [1] = 1 ∧ scaleFactor [1] = 100 ∧ (100 : ℚ) ≠ 1 ∧
    moistureCore (fun _ => 0) (fun _ => none) (dateUTC 2024 5 16 0 0 0) "L"
        "America/Chicago" (some 30) [6] "Date Time,V1(15)\n2024-06-15 12:00,1\n" =
      ⟨200, .data "L" "America/Chicago" (some 30) [⟨6, some 100, some 100, 59/10⟩]⟩ :=
  ⟨by decide, by decide, by decide, by decide⟩

/-- C1 witness: the amended boundary behavior at the concrete sample `[1]`. -/
theorem unit_boundary_median_one_scales_witness :
    medianJS [1] = 1 ∧ scaleFactor [1] = 100 :=
  ⟨by decide, unit_boundary_median_one_scales [1] (by decide)⟩

/-- C2 counterexample: the Papa-parse temperature handler maps the header
`T3(25)` to `physicalDepth = 25` (the parenthesized number used directly as
inches), not `25 / 2.54`. -/
theorem paren_depth_conversion_counterexample :
    papaTempMapping ["Date Time", "T3(25)"] 4 = some ⟨1, 25, "T3(25)"⟩ ∧
    ((25 : ℚ) ≠ 25 / 2.54) :=
  ⟨by decide, by decide⟩

/-- C2 (amended): in the regex-based handlers, every header cell matching
`T<channel>(<number>)` yields `physicalDepth = number / 2.54` inches — in
particular `T3(25) ↦ 25 / 2.54` — while the Papa-parse handler uses the
parenthesized number directly as inches (`T3(25) ↦ 25`). -/
theorem paren_depth_conversion :
    (∀ (s : String) (cm : ℚ), matchLetterParen 'T' s = some cm →
      tempColDepth s = some (cm / 2.54)) ∧
    tempColDepth "T3(25)" = some (25 / 2.54) ∧
    (papaTempMapping ["Date Time", "T3(25)"] 4).map PapaMapped.depthInches = some 25 := by
  refine ⟨?_, by decide, by decide⟩
  intro s cm h
  unfold tempColDepth
  rw [h]

/-- C2 witness: the regex-based conversion applied at the concrete header
`T3(25)`. -/
theorem paren_depth_conversion_witness :
    matchLetterParen 'T' "T3(25)" = some 25 ∧
    tempColDepth "T3(25)" = some (25 / 2.54) :=
  ⟨by decide, paren_depth_conversion.1 "T3(25)" 25 (by decide)⟩

/-- C3 counterexample: an upstream response whose header contains no
recognizable depth column makes the moisture pipeline return a status-500
(error-status) result, not a successful-but-empty one. -/
theorem empty_data_statuses_counterexample :
    moistureCore (fun _ => 0) (fun _ => none) (dateUTC 2024 5 16 0 0 0) "L"
        "America/Chicago" (some 30) [6] "Date Time,X\n2024-06-15 12:00,5\n" =
      ⟨500, .errHeader "No moisture (VWC) columns detected" ["Date Time", "X"]⟩ ∧
    (500 : ℕ) ≠ 200 :=
  ⟨by decide, by decide⟩

/-- C3 witness: the empty-CSV branch at the concrete empty input. -/
theorem empty_data_statuses_witness :
    parseCSV "" = ([] : List (List String)) ∧
    moistureCore (fun _ => 0) (fun _ => none) 0 "L" "UTC" none [] "" =
      ⟨200, .note "No data (empty CSV)"⟩ :=
  ⟨by decide,
    empty_data_statuses.1 (fun _ => 0) (fun _ => none) 0 "L" "UTC" none [] "" (by decide)⟩

/-- C5 witness: a winter stamp resolved in a fixed CST offset zone. -/
theorem two_pass_equals_fixed_offset_witness :
    parseLocalWallTime (fun _ => -21600000) (fun _ => none) "2024-01-15 12:00:00" =
      some (fixedOffsetResolve (-21600000) ⟨2024, 1, 15, 12, 0, 0⟩) :=
  two_pass_equals_fixed_offset (fun _ => -21600000) (fun _ => none)
    "2024-01-15 12:00:00" ⟨2024, 1, 15, 12, 0, 0⟩ (by decide) (by decide) rfl

/-- C6: the depth-selection fold returns a descriptor whose distance to the
requested depth is minimal over the whole list, and every descriptor
encountered before it is strictly farther (first-wins on ties); at depths
[5.9, 22.4] a request of 20 selects the 22.4 descriptor. -/
theorem depth_selector_nearest_first_wins :
    (∀ (w : ℚ) (c0 : VCol) (rest : List VCol),
      ∃ pre post,
        c0 :: rest = pre ++ nearGo w c0 (c0 :: rest) :: post ∧
        (∀ c ∈ c0 :: rest,
          |(nearGo w c0 (c0 :: rest)).depthInches - w| ≤ |c.depthInches - w|) ∧
        (∀ c ∈ pre,
          |(nearGo w c0 (c0 :: rest)).depthInches - w| < |c.depthInches - w|)) ∧
    nearGo 20 ⟨0, 5.9⟩ [⟨0, 5.9⟩, ⟨1, 22.4⟩] = ⟨1, 22.4⟩ := by
  constructor
  · intro w c0 rest
    rcases nearGo_spec w (c0 :: rest) c0 with ⟨heq, hmin⟩ |
      ⟨pre, post, hsplit, hbeat, hpre, hpost⟩
    · exact ⟨[], rest, by simp [heq], hmin, by simp⟩
    · refine ⟨pre, post, hsplit, ?_, hpre⟩
      intro c hc
      rw [hsplit] at hc
      rcases List.mem_append.mp hc with hc1 | hc2
      · exact le_of_lt (hpre c hc1)
      · rcases List.mem_cons.mp hc2 with rfl | hc3
        · exact le_refl _
        · exact hpost c hc3
  · decide

/-- C6 witness: the characterization applied at the concrete descriptor list
[5.9, 22.4] with request 20. -/
theorem depth_selector_nearest_first_wins_witness :
    ∃ pre post,
      [(⟨0, 5.9⟩ : VCol), ⟨1, 22.4⟩] =
        pre ++ nearGo 20 ⟨0, 5.9⟩ [⟨0, 5.9⟩, ⟨1, 22.4⟩] :: post ∧
      (∀ c ∈ [(⟨0, 5.9⟩ : VCol), ⟨1, 22.4⟩],
        |(nearGo 20 ⟨0, 5.9⟩ [⟨0, 5.9⟩, ⟨1, 22.4⟩]).depthInches - 20| ≤
          |c.depthInches - 20|) ∧
      (∀ c ∈ pre,
        |(nearGo 20 ⟨0, 5.9⟩ [⟨0, 5.9⟩, ⟨1, 22.4⟩]).depthInches - 20| <
          |c.depthInches - 20|) :=
  depth_selector_nearest_first_wins.1 20 ⟨0, 5.9⟩ [⟨1, 22.4⟩]

/-- C7: one uniform unit-scale factor is computed from the median of the
latest reading's values — 100 when the median is ≤ 1, 1 otherwise — and every
value of every series is that factor times the corresponding raw value; a
latest sample of 0.31 scales ×100 and one of 31.2 is left unscaled. -/
theorem uniform_unit_scale :
    (∀ sample : List ℚ, medianJS sample ≤ 1 → scaleFactor sample = 100) ∧
    (∀ sample : List ℚ, 1 < medianJS sample → scaleFactor sample = 1) ∧
    (∀ (cutoff : Option ℤ) (sample : List ℚ) (readings : List MReading) (c : ℕ)
        (p : ℤ × ℚ), p ∈ seriesFor cutoff (scaleFactor sample) readings c →
      ∃ r ∈ readings, ∃ raw, r.vals.lookup c = some raw ∧
        p = (r.ts, raw * scaleFactor sample)) ∧
    scaleFactor [0.31] = 100 ∧ scaleFactor [31.2] = 1 := by
  refine ⟨?_, ?_, ?_, by decide, by decide⟩
  · intro sample h
    unfold scaleFactor
    rw [if_neg (not_lt.mpr h)]
  · intro sample h
    unfold scaleFactor
    rw [if_pos h]
  · intro cutoff sample readings c p hp
    unfold seriesFor at hp
    rw [List.mem_filterMap] at hp
    obtain ⟨r, hr, hf⟩ := hp
    by_cases hc : cutoffBelow cutoff r.ts = true
    · rw [if_pos hc] at hf
      simp at hf
    · rw [if_neg hc] at hf
      obtain ⟨raw, hlook, heq⟩ := Option.map_eq_some'.mp hf
      exact ⟨r, hr, raw, hlook, heq.symm⟩

/-- C7 witness: the ≤ 1 branch applied at the concrete sample `[0.31]`. -/
theorem uniform_unit_scale_witness :
    medianJS [0.31] ≤ 1 ∧ scaleFactor [0.31] = 100 :=
  ⟨by decide, uniform_unit_scale.1 [0.31] (by decide)⟩

/-- C9 witness: the today window `[5, -5]` averages to exactly 0 and is
reported as null. -/
theorem zero_average_reported_null_witness :
    papaTodayAvgOut [5, -5] = none ∧ papaTodayAvgOut [] = none :=
  zero_average_reported_null [5, -5] (by decide) (by decide)

/-- C10 witness: a rejected fetch on a concrete non-preflight request is
caught and returned as a status-500 error result. -/
theorem handler_totality_catch_witness :
    moistureTry (fun _ => 0) (fun _ => none) 0 (some "k") (.reject "boom")
        ⟨some "GET", some ⟨some "L", none, none, none⟩⟩ = .error "boom" ∧
    moistureHandler (fun _ => 0) (fun _ => none) 0 (some "k") (.reject "boom")
        ⟨some "GET", some ⟨some "L", none, none, none⟩⟩ = ⟨500, .errMsg "boom"⟩ :=
  ⟨rfl, handler_totality_catch.2.1 (fun _ => 0) (fun _ => none) 0 (some "k")
    (.reject "boom") ⟨some "GET", some ⟨some "L", none, none, none⟩⟩ "boom"
    (by decide) rfl⟩

end KernelEval
